import Mathlib

/-!
Shallow embedding of the Netflix catalog EDA script (netflix_analysis.py) and
proofs about its cleaning, aggregation and insight-generation logic.

The script is a linear pandas pipeline: load a CSV, sentinel-fill four string
columns, parse `date_added` into `year_added`, compute seven aggregates
(type counts, top countries, yearly growth, top genres, movie durations,
duration by decade, TV seasons), render charts, and write `insights.txt`.
Each definition below mirrors one step of that pipeline over explicit lists
of rows; pandas/NumPy float arithmetic on counts is modelled with exact
rationals, and missing values (NaN) with `Option`.
-/

namespace NetflixEDA

/-! ### Character-level string helpers

pandas `.str.split(",")` / `.str.strip()` and the regex `(\d+)` extraction are
modelled directly on the character list of a string. -/

/-- A character the `str.strip()` call removes (ASCII whitespace). -/
def isStripChar (c : Char) : Bool :=
  c = ' ' || c = '\t' || c = '\n' || c = '\r'

/-- Remove leading and trailing whitespace, as `str.strip()` does. -/
def stripChars (l : List Char) : List Char :=
  ((l.dropWhile isStripChar).reverse.dropWhile isStripChar).reverse

/-- `str.strip()` on a string. -/
def strip (s : String) : String :=
  String.mk (stripChars s.data)

/-- Split a character list at every comma, as Python `split(",")` does:
empty segments are kept. -/
def splitCommaAux : List Char → List Char → List (List Char)
  | [], acc => [acc.reverse]
  | c :: rest, acc =>
      if c = ',' then acc.reverse :: splitCommaAux rest []
      else splitCommaAux rest (c :: acc)

/-- `s.split(",")` on a string. -/
def splitComma (s : String) : List String :=
  (splitCommaAux s.data []).map String.mk

/-- The tokens of a comma-separated field: split on comma, then trim each
token, as the script's `.str.split(",")` / `.explode` / `.str.strip()` chain
does. -/
def splitTrim (s : String) : List String :=
  (splitComma s).map strip

/-- Numeric value of a list of decimal digit characters. -/
def natOfDigits (l : List Char) : Nat :=
  l.foldl (fun n c => 10 * n + (c.toNat - 48)) 0

/-- The first maximal run of decimal digits of a character list, if any:
the semantics of an unanchored regex search for `(\d+)`. -/
def firstDigitRun : List Char → Option (List Char)
  | [] => none
  | c :: cs =>
      if c.isDigit then some (c :: cs.takeWhile Char.isDigit)
      else firstDigitRun cs

/-- `Series.str.extract(r"(\d+)").astype(float)` applied to one string:
the first maximal digit run as a number, `none` (NaN) when no digit occurs.
Used by the script both for `duration_minutes` (movies) and `seasons`
(TV shows). -/
def extractFirstNat (s : String) : Option Nat :=
  (firstDigitRun s.data).map natOfDigits

/-! ### Data model

`RawRow` is a row of the CSV as loaded (any field may be missing; NaN is
`none`).  `Row` is a row after the cleaning block: the four sentinel
columns are genuine strings, `year_added` has been derived. -/

structure RawRow where
  type : Option String
  title : Option String
  country : Option String
  rating : Option String
  duration : Option String
  listed_in : Option String
  date_added : Option String
  release_year : Option Int
deriving DecidableEq, Repr

structure Row where
  type : Option String
  title : Option String
  country : String
  rating : String
  duration : String
  listed_in : String
  year_added : Option Int
  release_year : Option Int
deriving DecidableEq, Repr

/-- `fillna("Unknown").astype(str).str.strip()` on one value. -/
def fillStrip (v : Option String) : String :=
  strip (v.getD "Unknown")

/-- The cleaning block applied to one row.  `hasDate` records whether the
`date_added` column exists in the table; `parseYear` models
`pd.to_datetime(..., errors="coerce").dt.year` on one cell: a total
function returning `none` exactly on values the parser cannot read
(coercion to NaT), so no exception can propagate. -/
def cleanRow (hasDate : Bool) (parseYear : String → Option Int) (r : RawRow) : Row :=
  { type := r.type
    title := r.title
    country := fillStrip r.country
    rating := fillStrip r.rating
    duration := fillStrip r.duration
    listed_in := fillStrip r.listed_in
    year_added := if hasDate then r.date_added.bind parseYear else none
    release_year := r.release_year }

/-- The whole cleaning block over the table. -/
def cleanTable (hasDate : Bool) (parseYear : String → Option Int)
    (rows : List RawRow) : List Row :=
  rows.map (cleanRow hasDate parseYear)

/-! ### Aggregates

`value_counts` on a pandas Series: one row per distinct value with its
occurrence count, sorted by count descending (`countsOf` lists distinct
values in first-occurrence order; the sort is stable).  The comparison
relations used by the various `sort_values` / `sort_index` calls follow. -/

/-- Distinct values of a list, each with its occurrence count. -/
def countsOf {α : Type} [DecidableEq α] (l : List α) : List (α × Nat) :=
  l.dedup.map (fun t => (t, l.count t))

/-- Order on count pairs: count descending (`sort_values(ascending=False)`). -/
def cntDesc {α : Type} (a b : α × Nat) : Prop := b.2 ≤ a.2

/-- Order on count pairs: count ascending (`sort_values(ascending=True)`). -/
def cntAsc {α : Type} (a b : α × Nat) : Prop := a.2 ≤ b.2

/-- Order on year/count pairs: year ascending (`sort_index()`). -/
def keyAsc (a b : Int × Nat) : Prop := a.1 ≤ b.1

instance {α : Type} : DecidableRel (@cntDesc α) :=
  fun a b => inferInstanceAs (Decidable (b.2 ≤ a.2))

instance {α : Type} : DecidableRel (@cntAsc α) :=
  fun a b => inferInstanceAs (Decidable (a.2 ≤ b.2))

instance : DecidableRel keyAsc :=
  fun a b => inferInstanceAs (Decidable (a.1 ≤ b.1))

instance {α : Type} : IsTotal (α × Nat) cntDesc :=
  ⟨fun a b => Nat.le_total b.2 a.2⟩

instance {α : Type} : IsTrans (α × Nat) cntDesc :=
  ⟨fun _ _ _ h h' => Nat.le_trans h' h⟩

instance {α : Type} : IsTotal (α × Nat) cntAsc :=
  ⟨fun a b => Nat.le_total a.2 b.2⟩

instance {α : Type} : IsTrans (α × Nat) cntAsc :=
  ⟨fun _ _ _ h h' => Nat.le_trans h h'⟩

instance : IsTotal (Int × Nat) keyAsc :=
  ⟨fun a b => Int.le_total a.1 b.1⟩

instance : IsTrans (Int × Nat) keyAsc :=
  ⟨fun _ _ _ h h' => Int.le_trans h h'⟩

/-- `Series.value_counts()`: distinct values with counts, sorted descending
by count. -/
def value_counts {α : Type} [DecidableEq α] (l : List α) : List (α × Nat) :=
  List.insertionSort cntDesc (countsOf l)

/-- The non-null `type` values (`value_counts` drops NaN). -/
def typeVals (recs : List Row) : List String :=
  recs.filterMap Row.type

/-- `df["type"].value_counts().sort_values(ascending=False)`. -/
def type_counts (recs : List Row) : List (String × Nat) :=
  List.insertionSort cntDesc (countsOf (typeVals recs))

/-- The exploded, trimmed country tokens of the whole table
(`assign(country=... .str.split(","))`, `explode`, `.str.strip()`). -/
def countryTokens (recs : List Row) : List String :=
  recs.flatMap (fun r => splitTrim r.country)

/-- Country tokens with the sentinel excluded (`.ne("Unknown")` filter). -/
def keptCountryTokens (recs : List Row) : List String :=
  (countryTokens recs).filter (fun t => t != "Unknown")

/-- `top_countries`: token counts, top 10 by count, re-sorted ascending. -/
def top_countries (recs : List Row) : List (String × Nat) :=
  List.insertionSort cntAsc ((value_counts (keptCountryTokens recs)).take 10)

/-- The exploded, trimmed genre tokens (`listed_in`). -/
def genreTokens (recs : List Row) : List String :=
  recs.flatMap (fun r => splitTrim r.listed_in)

/-- Genre tokens with the sentinel excluded. -/
def keptGenreTokens (recs : List Row) : List String :=
  (genreTokens recs).filter (fun t => t != "Unknown")

/-- `top_genres`: token counts, top 15 by count, re-sorted ascending. -/
def top_genres (recs : List Row) : List (String × Nat) :=
  List.insertionSort cntAsc ((value_counts (keptGenreTokens recs)).take 15)

/-- The non-null `year_added` values (`dropna(subset=["year_added"])`). -/
def yearVals (recs : List Row) : List Int :=
  recs.filterMap Row.year_added

/-- The `year_added` values of rows that also have a non-null title:
`groupby("year_added")["title"].count()` counts non-null titles per group. -/
def titleYearVals (recs : List Row) : List Int :=
  (recs.filter (fun r => r.title.isSome)).filterMap Row.year_added

/-- `year_counts`: one row per year present in the data, with the number of
non-null titles added that year, sorted ascending by year (`sort_index`). -/
def year_counts (recs : List Row) : List (Int × Nat) :=
  List.insertionSort keyAsc
    ((yearVals recs).dedup.map (fun y => (y, (titleYearVals recs).count y)))

/-- `df[df["type"].eq("Movie")]`. -/
def moviesOf (recs : List Row) : List Row :=
  recs.filter (fun r => r.type == some "Movie")

/-- `duration_minutes` of one movie row. -/
def duration_minutes (r : Row) : Option Nat :=
  extractFirstNat r.duration

/-- The non-null movie durations (histogram input of chart 05). -/
def movieDurations (recs : List Row) : List Nat :=
  (moviesOf recs).filterMap duration_minutes

/-- `decade` of one movie row: `release_year // 10 * 10` (Python floor
division), NA when `release_year` is missing. -/
def decade (r : Row) : Option Int :=
  r.release_year.map (fun y => y.fdiv 10 * 10)

/-- `recent_decades`: the movie rows kept by `dropna(subset=["decade"])`
followed by the `decade >= 1980` restriction (input of chart 06). -/
def recent_decades (recs : List Row) : List Row :=
  (moviesOf recs).filter (fun r =>
    match decade r with
    | some d => decide (1980 ≤ d)
    | none => false)

/-- `df[df["type"].eq("TV Show")]`. -/
def tvOf (recs : List Row) : List Row :=
  recs.filter (fun r => r.type == some "TV Show")

/-- `seasons` of one TV row. -/
def seasons (r : Row) : Option Nat :=
  extractFirstNat r.duration

/-- The non-null season values of the TV rows (histogram input of chart 07). -/
def tvSeasons (recs : List Row) : List Nat :=
  (tvOf recs).filterMap seasons

/-- The image files the script saves: six unconditional charts, plus the
seventh only when `tv["seasons"].notna().sum() > 0`. -/
def chartFiles (recs : List Row) : List String :=
  ["01_movies_vs_tv.png", "02_top_countries.png", "03_growth_by_year_added.png",
    "04_top_genres.png", "05_movie_duration_hist.png",
    "06_movie_duration_by_decade.png"]
  ++ (if 0 < (tvSeasons recs).length then ["07_tv_seasons_hist.png"] else [])

/-! ### Insights

The percentages and the mean the script computes on float Series are ratios
of non-negative counts; they are modelled as exact `Nat` ratios.  The `:.0f`
and `:.1f` format specifiers round half-to-even, as Python float formatting
does. -/

/-- Round the exact ratio `num / den` to the nearest integer, ties to even —
the integer Python's `:.0f` prints for the corresponding division. -/
def natRatRound (num den : Nat) : Nat :=
  let n := num / den
  let r := num % den
  if 2 * r < den then n
  else if den < 2 * r then n + 1
  else if n % 2 = 0 then n else n + 1

/-- `f"{num/den:.0f}"`. -/
def fmtRatio0 (num den : Nat) : String :=
  toString (natRatRound num den)

/-- `f"{num/den:.1f}"`. -/
def fmtRatio1 (num den : Nat) : String :=
  let n := natRatRound (10 * num) den
  toString (n / 10) ++ "." ++ toString (n % 10)

/-- `Series.idxmax` paired with its value: the first entry, in series order,
whose count is maximal (`none` on an empty series). -/
def idxmaxPair {α : Type} : List (α × Nat) → Option (α × Nat)
  | [] => none
  | a :: l => some (l.foldl (fun b p => if b.2 < p.2 then p else b) a)

/-- `Series.max()` over the counts. -/
def maxCount {α : Type} (l : List (α × Nat)) : Nat :=
  (l.map Prod.snd).foldl max 0

/-- `Series.sum()` over the counts. -/
def sumCount {α : Type} (l : List (α × Nat)) : Nat :=
  (l.map Prod.snd).sum

/-- The sentence shape of insight 1. -/
def insight1Str (t p : String) : String :=
  s!"{t} lead with ~{p}% of total titles."

/-- Insight 1: dominant type and its share of all counted titles. -/
def insight1 (recs : List Row) : Option String :=
  let tc := type_counts recs
  match idxmaxPair tc with
  | none => none
  | some dp =>
      some (insight1Str dp.1 (fmtRatio1 (100 * maxCount tc) (sumCount tc)))

/-- Insight 2: the three highest-count countries, re-sorted descending. -/
def insight2 (recs : List Row) : Option String :=
  let tc := top_countries recs
  if tc.isEmpty then none
  else
    let names := ((List.insertionSort cntDesc tc).take 3).map Prod.fst
    some ("Top content countries: " ++ String.intercalate ", " names ++ ".")

/-- The sentence shape of insight 3. -/
def insight3Str (y : Int) (p : String) : String :=
  s!"Catalog peak additions around {y}; latest year is ~{p}% of peak."

/-- Insight 3: peak year of additions and the latest year as a percentage of
the peak, emitted only when the yearly series has more than one point. -/
def insight3 (recs : List Row) : Option String :=
  let yc := year_counts recs
  if 1 < yc.length then
    match idxmaxPair yc, yc.getLast? with
    | some peak, some last =>
        some (insight3Str peak.1 (fmtRatio0 (100 * last.2) (maxCount yc)))
    | _, _ => none
  else none

/-- Insight 4: mean movie duration, emitted when any non-null duration
exists. -/
def insight4 (recs : List Row) : Option String :=
  let ds := movieDurations recs
  if ds.isEmpty then none
  else
    let mstr := fmtRatio0 ds.sum ds.length
    some s!"Avg movie duration ≈ {mstr} minutes."

/-- The `ins` list: the four conditional sentences in order. -/
def insightsList (recs : List Row) : List String :=
  ([insight1, insight2, insight3, insight4]).filterMap (fun f => f recs)

/-- The exact content written to `insights.txt`:
`"Key Insights:\n- " + "\n- ".join(ins)`. -/
def insightsText (recs : List Row) : String :=
  "Key Insights:\n- " ++ String.intercalate "\n- " (insightsList recs)

/-! ### Concrete rows used by the scenario parts of the claims -/

/-- A cleaned row with the fields the aggregates consult. -/
def mkRow (ty ti : Option String) (co du li : String) (ya ry : Option Int) : Row :=
  { type := ty, title := ti, country := co, rating := "Unknown", duration := du,
    listed_in := li, year_added := ya, release_year := ry }

/-- A row whose literal type is "Unknown", whose title is missing, and whose
country field mixes a real country with the sentinel. -/
def rowC2 : Row :=
  mkRow (some "Unknown") none "United States, Unknown" "Unknown" "Unknown"
    (some 2020) none

/-- Two titled rows added in 2019 and 2020. -/
def demoC4 : List Row :=
  [mkRow (some "Movie") (some "a") "United States" "90 min" "Dramas" (some 2019) none,
    mkRow (some "Movie") (some "b") "United States" "100 min" "Dramas" (some 2020) none]

/-- One movie listing two comma-separated countries. -/
def demoC5 : List Row :=
  [mkRow (some "Movie") (some "a") "United States, India" "90 min" "Dramas"
    none none]

/-- A movie released in 1994. -/
def rowMovie1994 : Row :=
  mkRow (some "Movie") (some "m94") "United States" "120 min" "Dramas"
    none (some 1994)

/-- A movie released in 1975. -/
def rowMovie1975 : Row :=
  mkRow (some "Movie") (some "m75") "United States" "100 min" "Dramas"
    none (some 1975)

/-- A two-movie table with releases in 1994 and 1975. -/
def demoC6 : List Row := [rowMovie1994, rowMovie1975]

/-- Two movies and one TV show. -/
def demoC7 : List Row :=
  [mkRow (some "Movie") (some "a") "United States" "90 min" "Dramas" none none,
    mkRow (some "Movie") (some "b") "United States" "100 min" "Dramas" none none,
    mkRow (some "TV Show") (some "c") "United States" "2 Seasons" "Dramas"
      none none]

/-- A raw row whose `date_added` no parser accepts. -/
def rawC8 : RawRow :=
  { type := some "Movie", title := some "t", country := none, rating := none,
    duration := some "90 min", listed_in := none,
    date_added := some "not a date", release_year := some 2000 }

/-- One TV show whose duration has no digits. -/
def demoC9 : List Row :=
  [mkRow (some "TV Show") (some "c") "United States" "Unknown" "Dramas"
    none none]

/-- One movie whose country and genre fields end in a trailing comma. -/
def demoC10 : List Row :=
  [mkRow (some "Movie") (some "a") "India," "90 min" "Dramas," none none]

/-! ### C1: numeric extraction -/

/-- `takeWhile` of an all-digit list followed by a list not starting with a
digit is the all-digit list. -/
lemma takeWhile_digits_append (run post : List Char)
    (hrun : ∀ c ∈ run, c.isDigit = true)
    (hpost : ∀ c ∈ post.take 1, c.isDigit = false) :
    (run ++ post).takeWhile Char.isDigit = run := by
  induction run with
  | nil =>
      cases post with
      | nil => rfl
      | cons c cs =>
          simp only [List.nil_append, List.takeWhile]
          have := hpost c (by simp)
          simp [this]
  | cons c cs ih =>
      have hc := hrun c (by simp)
      simp only [List.cons_append, List.takeWhile, hc]
      rw [List.append_eq, ih (fun d hd => hrun d (by simp [hd]))]

/-- `firstDigitRun` skips a digit-free prefix and returns the first maximal
digit run. -/
lemma firstDigitRun_append (pre run post : List Char)
    (hpre : ∀ c ∈ pre, c.isDigit = false)
    (hne : run ≠ [])
    (hrun : ∀ c ∈ run, c.isDigit = true)
    (hpost : ∀ c ∈ post.take 1, c.isDigit = false) :
    firstDigitRun (pre ++ run ++ post) = some run := by
  induction pre with
  | nil =>
      cases run with
      | nil => exact absurd rfl hne
      | cons d ds =>
          have hd := hrun d (by simp)
          simp only [List.nil_append, List.cons_append, firstDigitRun, hd, if_pos]
          rw [List.append_eq,
            takeWhile_digits_append ds post (fun c hc => hrun c (by simp [hc])) hpost]
  | cons c cs ih =>
      have hc := hpre c (by simp)
      simp only [List.cons_append, firstDigitRun, hc]
      exact ih (fun d hd => hpre d (by simp [hd]))

/-- A string with no digit yields no run. -/
lemma firstDigitRun_eq_none (l : List Char) (h : ∀ c ∈ l, c.isDigit = false) :
    firstDigitRun l = none := by
  induction l with
  | nil => rfl
  | cons c cs ih =>
      have hc := h c (by simp)
      simp only [firstDigitRun, hc]
      exact ih (fun d hd => h d (by simp [hd]))

/-- C1. The numeric extraction used for `duration_minutes` (movies) and
`seasons` (TV shows): for any duration string that decomposes as a digit-free
prefix, a nonempty maximal digit run, and a remainder not starting with a
digit, extraction returns exactly the value of that first run (a `Nat`, hence
non-negative); any string with no digit at all yields `none`; extraction is a
total function, so no error is possible; and on the spec's examples,
"90 min" yields 90, "3 Seasons" yields 3 and "Unknown" yields `none`. -/
theorem C1_numeric_extraction (s : String) (pre run post : List Char)
    (hs : s.data = pre ++ run ++ post)
    (hpre : ∀ c ∈ pre, c.isDigit = false)
    (hne : run ≠ [])
    (hrun : ∀ c ∈ run, c.isDigit = true)
    (hpost : ∀ c ∈ post.take 1, c.isDigit = false) :
    extractFirstNat s = some (natOfDigits run) ∧
    (∀ t : String, (∀ c ∈ t.data, c.isDigit = false) → extractFirstNat t = none) ∧
    extractFirstNat "90 min" = some 90 ∧
    extractFirstNat "3 Seasons" = some 3 ∧
    extractFirstNat "Unknown" = none := by
  refine ⟨?_, ?_, by decide, by decide, by decide⟩
  · unfold extractFirstNat
    rw [hs, firstDigitRun_append pre run post hpre hne hrun hpost]
    rfl
  · intro t ht
    unfold extractFirstNat
    rw [firstDigitRun_eq_none t.data ht]
    rfl

/-- Witness for C1 at the concrete input "90 min" (prefix empty, run "90",
remainder " min"). -/
theorem C1_numeric_extraction_witness :
    extractFirstNat "90 min" = some (natOfDigits ['9', '0']) :=
  (C1_numeric_extraction "90 min" [] ['9', '0'] [' ', 'm', 'i', 'n']
    (by decide) (by decide) (by decide) (by decide) (by decide)).1

/-! ### Counting and maximum helper lemmas -/

/-- Summing the indicator of one element over a duplicate-free list that
contains it gives 1. -/
lemma sum_map_indicator {α : Type} [DecidableEq α] (d : List α) (a : α)
    (hd : d.Nodup) (ha : a ∈ d) :
    (d.map fun t => if a = t then 1 else 0).sum = 1 := by
  induction d with
  | nil => cases ha
  | cons b d' ih =>
      rcases List.mem_cons.mp ha with hab | ha'
      · subst hab
        have hnot : a ∉ d' := (List.nodup_cons.mp hd).1
        have hz : (d'.map fun t => if a = t then 1 else 0).sum = 0 := by
          rw [List.sum_eq_zero]
          intro x hx
          rcases List.mem_map.mp hx with ⟨t, ht, rfl⟩
          have : a ≠ t := fun h => hnot (h ▸ ht)
          simp [this]
        simp [hz]
      · have hba : ¬a = b := fun h => (List.nodup_cons.mp hd).1 (h ▸ ha')
        simp [hba, ih (List.nodup_cons.mp hd).2 ha']

/-- Summing the occurrence counts of `l` over any duplicate-free list of keys
covering `l` recovers the length of `l`. -/
lemma sum_map_count_of_mem_subset {α : Type} [DecidableEq α] (d l : List α)
    (hd : d.Nodup) (hl : ∀ x ∈ l, x ∈ d) :
    (d.map fun t => l.count t).sum = l.length := by
  induction l with
  | nil => simp
  | cons a l' ih =>
      have hstep :
          (d.map fun t => (a :: l').count t) =
            d.map fun t => l'.count t + if a = t then 1 else 0 := by
        refine List.map_congr_left fun t _ => ?_
        rw [List.count_cons]
        by_cases h : a = t <;> simp [h]
      rw [hstep, List.sum_map_add,
        ih (fun x hx => hl x (List.mem_cons_of_mem a hx)),
        sum_map_indicator d a hd (hl a (List.mem_cons_self a l'))]
      simp [List.length_cons]

/-- `filterMap` keeps exactly the entries on which the function succeeds. -/
lemma length_filterMap_isSome {α β : Type} (f : α → Option β) (l : List α) :
    (l.filterMap f).length = (l.filter (fun x => (f x).isSome)).length := by
  induction l with
  | nil => rfl
  | cons a l' ih =>
      cases hfa : f a with
      | none => simp [List.filterMap_cons, List.filter_cons, hfa, ih]
      | some b => simp [List.filterMap_cons, List.filter_cons, hfa, ih]

/-- The fold the model uses for `idxmax` returns its accumulator or a list
element, and that result's count dominates the accumulator and every list
element. -/
lemma foldl_choose_max_spec {α : Type} (l : List (α × Nat)) :
    ∀ a : α × Nat,
      (l.foldl (fun b p => if b.2 < p.2 then p else b) a = a ∨
        l.foldl (fun b p => if b.2 < p.2 then p else b) a ∈ l) ∧
      a.2 ≤ (l.foldl (fun b p => if b.2 < p.2 then p else b) a).2 ∧
      ∀ q ∈ l, q.2 ≤ (l.foldl (fun b p => if b.2 < p.2 then p else b) a).2 := by
  induction l with
  | nil => exact fun a => ⟨Or.inl rfl, Nat.le_refl _, by simp⟩
  | cons c cs ih =>
      intro a
      simp only [List.foldl_cons]
      obtain ⟨hmem, hle, hall⟩ := ih (if a.2 < c.2 then c else a)
      have haux : a.2 ≤ (if a.2 < c.2 then c else a).2 ∧
          c.2 ≤ (if a.2 < c.2 then c else a).2 := by
        by_cases hac : a.2 < c.2
        · rw [if_pos hac]; exact ⟨Nat.le_of_lt hac, Nat.le_refl _⟩
        · rw [if_neg hac]; exact ⟨Nat.le_refl _, Nat.le_of_not_lt hac⟩
      refine ⟨?_, Nat.le_trans haux.1 hle, ?_⟩
      · rcases hmem with h | h
        · rw [h]
          by_cases hac : a.2 < c.2
          · exact Or.inr (by simp [hac])
          · exact Or.inl (if_neg hac)
        · exact Or.inr (List.mem_cons_of_mem c h)
      · intro q hq
        rcases List.mem_cons.mp hq with rfl | hq'
        · exact Nat.le_trans haux.2 hle
        · exact hall q hq'

/-- `idxmaxPair` of a series returns a member whose count dominates every
count of the series (pandas `idxmax` paired with `max`). -/
lemma idxmaxPair_spec {α : Type} {l : List (α × Nat)} {p : α × Nat}
    (h : idxmaxPair l = some p) : p ∈ l ∧ ∀ q ∈ l, q.2 ≤ p.2 := by
  cases l with
  | nil => cases h
  | cons a t =>
      obtain ⟨hmem, hle, hall⟩ := foldl_choose_max_spec t a
      have hp : t.foldl (fun b p => if b.2 < p.2 then p else b) a = p := by
        simpa [idxmaxPair] using h
      rw [hp] at hmem hle hall
      refine ⟨?_, ?_⟩
      · rcases hmem with h' | h'
        · exact h' ▸ List.mem_cons_self a t
        · exact List.mem_cons_of_mem a h'
      · intro q hq
        rcases List.mem_cons.mp hq with rfl | hq'
        · exact hle
        · exact hall q hq'

/-- A `foldl max` over `Nat` is the accumulator or a member, and bounds
both. -/
lemma foldl_max_spec (l : List Nat) :
    ∀ a : Nat,
      (l.foldl max a = a ∨ l.foldl max a ∈ l) ∧
      a ≤ l.foldl max a ∧ ∀ x ∈ l, x ≤ l.foldl max a := by
  induction l with
  | nil => exact fun a => ⟨Or.inl rfl, Nat.le_refl _, by simp⟩
  | cons c cs ih =>
      intro a
      simp only [List.foldl_cons]
      obtain ⟨hmem, hle, hall⟩ := ih (max a c)
      refine ⟨?_, Nat.le_trans (Nat.le_max_left a c) hle, ?_⟩
      · rcases hmem with h | h
        · rw [h]
          rcases Nat.eq_or_lt_of_le (Nat.le_max_left a c) with h' | h'
          · exact Or.inl h'.symm
          · have : max a c = c := by omega
            rw [this]; exact Or.inr (List.mem_cons_self c cs)
        · exact Or.inr (List.mem_cons_of_mem c h)
      · intro q hq
        rcases List.mem_cons.mp hq with rfl | hq'
        · exact Nat.le_trans (Nat.le_max_right a q) hle
        · exact hall q hq'

/-- `Series.max()` agrees with the count of the entry `idxmax` selects. -/
lemma maxCount_eq_idxmax {α : Type} {l : List (α × Nat)} {p : α × Nat}
    (h : idxmaxPair l = some p) : maxCount l = p.2 := by
  obtain ⟨hmem, hall⟩ := idxmaxPair_spec h
  obtain ⟨hm, _, hbound⟩ := foldl_max_spec (l.map Prod.snd) 0
  refine Nat.le_antisymm ?_ ?_
  · rcases hm with h0 | hmem'
    · rw [maxCount, h0]; exact Nat.zero_le _
    · rcases List.mem_map.mp hmem' with ⟨q, hq, hq2⟩
      rw [maxCount, ← hq2]
      exact hall q hq
  · exact hbound p.2 (List.mem_map.mpr ⟨p, hmem, rfl⟩)

/-- Sorting a series does not change the sum of its counts. -/
lemma sumCount_insertionSort {α : Type} (r : (α × Nat) → (α × Nat) → Prop)
    [DecidableRel r] (l : List (α × Nat)) :
    sumCount (List.insertionSort r l) = sumCount l :=
  ((List.perm_insertionSort r l).map Prod.snd).sum_eq

/-- The total of a `value_counts` series is the length of the underlying
list of observations. -/
lemma sumCount_value_counts {α : Type} [DecidableEq α] (l : List α) :
    sumCount (value_counts l) = l.length := by
  rw [value_counts, sumCount_insertionSort]
  show ((countsOf l).map Prod.snd).sum = l.length
  rw [countsOf, List.map_map]
  have : (Prod.snd ∘ fun t => (t, l.count t)) = fun t => l.count t := rfl
  rw [this]
  exact List.sum_map_count_dedup_eq_length l

/-- Truncating a series to its first `n` rows can only lower the total. -/
lemma sumCount_take_le {α : Type} (n : Nat) (l : List (α × Nat)) :
    sumCount (l.take n) ≤ sumCount l := by
  show ((l.take n).map Prod.snd).sum ≤ (l.map Prod.snd).sum
  conv_rhs => rw [← List.take_append_drop n l]
  rw [List.map_append, List.sum_append]
  exact Nat.le_add_right _ _

/-! ### C2: distribution totals -/

/-- C2 counterexample.  On the one-row table `[rowC2]` the claim fails three
ways: the type distribution counts the literal type "Unknown", so its total
(1) exceeds the number of records with a non-"Unknown"/non-null type (0); the
yearly series counts only non-null titles, so its total (0) is below the
number of records with a non-null `year_added` (1); and the country
distribution drops the "Unknown" token of a qualifying record, so its total
(1) differs from that record's token count (2). -/
theorem C2_counterexample :
    sumCount (type_counts [rowC2]) = 1 ∧
    ([rowC2].filter (fun r => r.type.isSome && r.type != some "Unknown")).length = 0 ∧
    sumCount (year_counts [rowC2]) = 0 ∧
    ([rowC2].filter (fun r => r.year_added.isSome)).length = 1 ∧
    rowC2.country ≠ "Unknown" ∧
    (splitTrim rowC2.country).length = 2 ∧
    sumCount (value_counts (keptCountryTokens [rowC2])) = 1 := by
  decide

/-- C2 (amended).  For every input table: the type distribution's total
equals the number of records with a non-null type (a literal "Unknown" type
is counted); the yearly-growth total equals the number of records with both a
non-null title and a non-null `year_added`; each split field's full
distribution total equals the number of non-"Unknown" tokens across all
records, which is at most the total number of tokens, i.e. the sum over
records of their token counts; and the displayed top-k truncation can only
lower a total. -/
theorem C2_distribution_totals (recs : List Row) :
    sumCount (type_counts recs) = (recs.filter (fun r => r.type.isSome)).length ∧
    sumCount (year_counts recs) =
      ((recs.filter (fun r => r.title.isSome)).filter
        (fun r => r.year_added.isSome)).length ∧
    sumCount (value_counts (keptCountryTokens recs)) =
      (keptCountryTokens recs).length ∧
    (keptCountryTokens recs).length ≤ (countryTokens recs).length ∧
    (countryTokens recs).length =
      (recs.map (fun r => (splitTrim r.country).length)).sum ∧
    sumCount (top_countries recs) ≤
      sumCount (value_counts (keptCountryTokens recs)) ∧
    sumCount (value_counts (keptGenreTokens recs)) =
      (keptGenreTokens recs).length ∧
    sumCount (top_genres recs) ≤
      sumCount (value_counts (keptGenreTokens recs)) := by
  refine ⟨?_, ?_, sumCount_value_counts _, List.length_filter_le _ _, ?_, ?_,
    sumCount_value_counts _, ?_⟩
  · rw [show type_counts recs = value_counts (typeVals recs) from rfl,
      sumCount_value_counts, typeVals, length_filterMap_isSome]
  · rw [year_counts, sumCount_insertionSort]
    show ((((yearVals recs).dedup).map
      (fun y => (y, (titleYearVals recs).count y))).map Prod.snd).sum = _
    rw [List.map_map]
    have hcomp : (Prod.snd ∘ fun y => (y, (titleYearVals recs).count y)) =
        fun y => (titleYearVals recs).count y := rfl
    rw [hcomp, sum_map_count_of_mem_subset _ _ (List.nodup_dedup _) ?_,
      titleYearVals, length_filterMap_isSome]
    intro x hx
    rw [List.mem_dedup]
    exact ((List.filter_sublist recs).filterMap Row.year_added).subset hx
  · rw [countryTokens]
    induction recs with
    | nil => rfl
    | cons r rs ih => simp [List.flatMap_cons, ih]
  · rw [top_countries, sumCount_insertionSort]
    exact sumCount_take_le 10 _
  · rw [top_genres, sumCount_insertionSort]
    exact sumCount_take_le 15 _

/-! ### C3: the empty table -/

/-- C3 counterexample.  For the empty table the script writes
`"Key Insights:\n- " + "\n- ".join([])`, i.e. the header followed by a
newline and a dangling "- " bullet prefix — not the header line alone. -/
theorem C3_counterexample :
    insightsText ([] : List Row) = "Key Insights:\n- " ∧
    insightsText ([] : List Row) ≠ "Key Insights:" := by
  decide

/-- C3 (amended).  For the empty table every insight precondition is false,
so all four sentences are omitted and the `ins` list is empty; the text
written to `insights.txt` is then exactly `"Key Insights:\n- "`: the header
line followed by a newline and a dangling "- " prefix, rather than the
header alone. -/
theorem C3_empty_table :
    insight1 ([] : List Row) = none ∧
    insight2 ([] : List Row) = none ∧
    insight3 ([] : List Row) = none ∧
    insight4 ([] : List Row) = none ∧
    insightsList ([] : List Row) = [] ∧
    insightsText ([] : List Row) = "Key Insights:\n- " := by
  decide

/-! ### C4: the yearly-growth insight -/

/-- In a series sorted ascending by year, the last entry has the latest
year. -/
lemma sorted_keyAsc_getLast_max {l : List (Int × Nat)}
    (hs : List.Sorted keyAsc l) (hne : l ≠ []) :
    ∀ q ∈ l, q.1 ≤ (l.getLast hne).1 := by
  intro q hq
  have hsplit := List.dropLast_append_getLast hne
  rw [← hsplit] at hs hq
  rcases List.mem_append.mp hq with h | h
  · exact (List.pairwise_append.mp hs).2.2 q h _ (List.mem_singleton_self _)
  · rw [List.mem_singleton.mp h]

/-- C4.  Whenever the yearly-growth series has more than one data point (and
every point counts at least one title, so the percentage is well defined),
the third insight is emitted with the year of maximum count as the peak and
the latest year's count as a half-even-rounded percentage of the peak count;
with at most one data point the sentence is omitted. -/
theorem C4_insight3_peak (recs : List Row)
    (hlen : 1 < (year_counts recs).length)
    (hpos : ∀ p ∈ year_counts recs, 0 < p.2) :
    (∃ peak last,
      idxmaxPair (year_counts recs) = some peak ∧
      (year_counts recs).getLast? = some last ∧
      peak ∈ year_counts recs ∧
      (∀ q ∈ year_counts recs, q.2 ≤ peak.2) ∧
      last ∈ year_counts recs ∧
      (∀ q ∈ year_counts recs, q.1 ≤ last.1) ∧
      0 < peak.2 ∧
      insight3 recs =
        some (insight3Str peak.1 (fmtRatio0 (100 * last.2) peak.2))) ∧
    (∀ recs' : List Row,
      (year_counts recs').length ≤ 1 → insight3 recs' = none) := by
  constructor
  · have hne : year_counts recs ≠ [] := by
      intro h
      rw [h] at hlen
      exact absurd hlen (by decide)
    obtain ⟨peak, hidx⟩ : ∃ p, idxmaxPair (year_counts recs) = some p := by
      cases hyc : year_counts recs with
      | nil => exact absurd hyc hne
      | cons a t => exact ⟨_, rfl⟩
    have hlast : (year_counts recs).getLast? =
        some ((year_counts recs).getLast hne) :=
      List.getLast?_eq_getLast_of_ne_nil hne
    have hsorted : List.Sorted keyAsc (year_counts recs) :=
      List.sorted_insertionSort keyAsc _
    obtain ⟨hpeakmem, hpeakmax⟩ := idxmaxPair_spec hidx
    refine ⟨peak, (year_counts recs).getLast hne, hidx, hlast, hpeakmem,
      hpeakmax, List.getLast_mem hne,
      sorted_keyAsc_getLast_max hsorted hne, hpos peak hpeakmem, ?_⟩
    show (if 1 < (year_counts recs).length then _ else none) = _
    rw [if_pos hlen, hidx, hlast, maxCount_eq_idxmax hidx]
  · intro recs' hlen'
    show (if 1 < (year_counts recs').length then _ else none) = none
    rw [if_neg (by omega)]

/-- Witness for C4: on a table with titles added in 2019 and 2020 (one
each), the peak is 2019 (first maximal count) and the latest year is at
100% of the peak. -/
theorem C4_insight3_peak_witness :
    ∃ peak last,
      idxmaxPair (year_counts demoC4) = some peak ∧
      (year_counts demoC4).getLast? = some last ∧
      peak ∈ year_counts demoC4 ∧
      (∀ q ∈ year_counts demoC4, q.2 ≤ peak.2) ∧
      last ∈ year_counts demoC4 ∧
      (∀ q ∈ year_counts demoC4, q.1 ≤ last.1) ∧
      0 < peak.2 ∧
      insight3 demoC4 =
        some (insight3Str peak.1 (fmtRatio0 (100 * last.2) peak.2)) :=
  (C4_insight3_peak demoC4 (by decide) (by decide)).1

/-! ### C7: the dominant-type insight -/

/-- C7.  Whenever the type distribution is non-empty, the first insight
names the type `idxmax` selects — a type of maximal count — together with
its share of the total as a one-decimal percentage; on two Movies and one
TV Show the emitted sentence is exactly
"Movie lead with ~66.7% of total titles.". -/
theorem C7_insight1_dominant (recs : List Row)
    (hne : type_counts recs ≠ []) :
    (∃ dp, idxmaxPair (type_counts recs) = some dp ∧
      dp ∈ type_counts recs ∧
      (∀ q ∈ type_counts recs, q.2 ≤ dp.2) ∧
      insight1 recs =
        some (insight1Str dp.1
          (fmtRatio1 (100 * dp.2) (sumCount (type_counts recs))))) ∧
    insight1 demoC7 = some "Movie lead with ~66.7% of total titles." := by
  refine ⟨?_, by decide⟩
  obtain ⟨dp, hidx⟩ : ∃ p, idxmaxPair (type_counts recs) = some p := by
    cases htc : type_counts recs with
    | nil => exact absurd htc hne
    | cons a t => exact ⟨_, rfl⟩
  obtain ⟨hmem, hmax⟩ := idxmaxPair_spec hidx
  refine ⟨dp, hidx, hmem, hmax, ?_⟩
  show (match idxmaxPair (type_counts recs) with
    | none => none
    | some dp =>
        some (insight1Str dp.1
          (fmtRatio1 (100 * maxCount (type_counts recs))
            (sumCount (type_counts recs))))) = _
  rw [hidx, maxCount_eq_idxmax hidx]

/-- Witness for C7 on the two-Movies-one-TV-Show table. -/
theorem C7_insight1_dominant_witness :
    ∃ dp, idxmaxPair (type_counts demoC7) = some dp ∧
      dp ∈ type_counts demoC7 ∧
      (∀ q ∈ type_counts demoC7, q.2 ≤ dp.2) ∧
      insight1 demoC7 =
        some (insight1Str dp.1
          (fmtRatio1 (100 * dp.2) (sumCount (type_counts demoC7)))) :=
  (C7_insight1_dominant demoC7 (by decide)).1

/-! ### C5: the top-countries aggregate -/

/-- C5.  Every entry of `top_countries` is a non-"Unknown" token counted
once per occurrence across the exploded country fields; the series keeps
`min 10 (number of distinct tokens)` entries; every kept entry's count
dominates every entry left out of the top 10; the kept entries are
re-ordered ascending by count; and the field "United States, India" splits
into the two separate tokens, each counted once. -/
theorem C5_top_countries_spec (recs : List Row) :
    (∀ p ∈ top_countries recs,
      p.1 ≠ "Unknown" ∧ p.2 = (keptCountryTokens recs).count p.1) ∧
    (top_countries recs).length =
      min 10 (keptCountryTokens recs).dedup.length ∧
    (∀ p ∈ top_countries recs, ∀ q ∈ value_counts (keptCountryTokens recs),
      q.1 ∉ (top_countries recs).map Prod.fst → q.2 ≤ p.2) ∧
    List.Sorted cntAsc (top_countries recs) ∧
    splitTrim "United States, India" = ["United States", "India"] ∧
    top_countries demoC5 = [("United States", 1), ("India", 1)] := by
  have htc : top_countries recs =
      List.insertionSort cntAsc
        ((value_counts (keptCountryTokens recs)).take 10) := rfl
  have htopperm :=
    List.perm_insertionSort cntAsc ((value_counts (keptCountryTokens recs)).take 10)
  have hfullperm :=
    List.perm_insertionSort cntDesc (countsOf (keptCountryTokens recs))
  refine ⟨?_, ?_, ?_, ?_, by decide, by decide⟩
  · intro p hp
    rw [htc] at hp
    have hp10 := htopperm.mem_iff.mp hp
    have hpfull : p ∈ value_counts (keptCountryTokens recs) :=
      List.take_subset 10 _ hp10
    have hpc : p ∈ countsOf (keptCountryTokens recs) :=
      hfullperm.mem_iff.mp hpfull
    obtain ⟨t, ht, hpt⟩ := List.mem_map.mp hpc
    have htk : t ∈ keptCountryTokens recs := List.mem_dedup.mp ht
    have htu : t ≠ "Unknown" := by
      have := (List.mem_filter.mp htk).2
      simpa using this
    rw [← hpt]
    exact ⟨htu, rfl⟩
  · rw [htc, List.length_insertionSort, List.length_take, value_counts,
      List.length_insertionSort, countsOf, List.length_map]
  · intro p hp q hq hqnot
    rw [htc] at hp
    have hp10 := htopperm.mem_iff.mp hp
    have hsorted : List.Pairwise cntDesc (value_counts (keptCountryTokens recs)) :=
      List.sorted_insertionSort cntDesc _
    have hq2 : q ∈ (value_counts (keptCountryTokens recs)).take 10 ++
        (value_counts (keptCountryTokens recs)).drop 10 := by
      rw [List.take_append_drop]
      exact hq
    rcases List.mem_append.mp hq2 with h | h
    · exfalso
      apply hqnot
      rw [htc]
      exact List.mem_map_of_mem Prod.fst (htopperm.mem_iff.mpr h)
    · have hsplit : List.Pairwise cntDesc
          ((value_counts (keptCountryTokens recs)).take 10 ++
            (value_counts (keptCountryTokens recs)).drop 10) := by
        rw [List.take_append_drop]
        exact hsorted
      exact (List.pairwise_append.mp hsplit).2.2 p hp10 q h
  · rw [htc]
    exact List.sorted_insertionSort cntAsc _

/-- Witness for C5: "India" is a kept entry of the demo table's
top-countries series, and its count is its number of token occurrences. -/
theorem C5_top_countries_spec_witness :
    ("India", 1) ∈ top_countries demoC5 ∧
    ("India", (1 : Nat)).1 ≠ "Unknown" ∧
    ("India", (1 : Nat)).2 = (keptCountryTokens demoC5).count "India" := by
  have h := (C5_top_countries_spec demoC5).1 ("India", 1) (by decide)
  exact ⟨by decide, h.1, h.2⟩

/-! ### C6: movie decades -/

/-- C6.  A movie row enters the duration-by-decade aggregate exactly when it
is a movie with a release year whose decade (`release_year // 10 * 10`) is at
least 1980; rows without a release year are excluded; 1994 falls in decade
1990; and the 1975 movie is excluded from the decade aggregate while still
contributing its duration to the movie-duration data. -/
theorem C6_decade_restriction (recs : List Row) (r : Row) :
    (r ∈ recent_decades recs ↔
      r ∈ moviesOf recs ∧
      ∃ y, r.release_year = some y ∧ 1980 ≤ y.fdiv 10 * 10) ∧
    (∀ m : Row, m.release_year = some 1994 → decade m = some 1990) ∧
    (r.release_year = none → r ∉ recent_decades recs) ∧
    decade rowMovie1994 = some 1990 ∧
    rowMovie1975 ∉ recent_decades demoC6 ∧
    rowMovie1975 ∈ moviesOf demoC6 ∧
    duration_minutes rowMovie1975 = some 100 ∧
    (100 : Nat) ∈ movieDurations demoC6 := by
  have hiff : r ∈ recent_decades recs ↔
      r ∈ moviesOf recs ∧
      ∃ y, r.release_year = some y ∧ 1980 ≤ y.fdiv 10 * 10 := by
    constructor
    · intro h
      obtain ⟨hm, hpred⟩ := List.mem_filter.mp h
      refine ⟨hm, ?_⟩
      cases hy : r.release_year with
      | none =>
          rw [show decade r = none from by simp [decade, hy]] at hpred
          simp at hpred
      | some y =>
          rw [show decade r = some (y.fdiv 10 * 10) from by simp [decade, hy]]
            at hpred
          exact ⟨y, rfl, of_decide_eq_true hpred⟩
    · rintro ⟨hm, y, hy, hge⟩
      refine List.mem_filter.mpr ⟨hm, ?_⟩
      show (match decade r with
        | some d => decide (1980 ≤ d)
        | none => false) = true
      rw [show decade r = some (y.fdiv 10 * 10) from by simp [decade, hy]]
      exact decide_eq_true hge
  refine ⟨hiff, ?_, ?_, by decide, by decide, by decide, by decide, by decide⟩
  · intro m hm
    rw [decade, hm]
    decide
  · intro hy h
    obtain ⟨_, y, hy', _⟩ := hiff.mp h
    rw [hy] at hy'
    cases hy'

/-- Witness for C6: the 1994 movie is kept by the decade restriction. -/
theorem C6_decade_restriction_witness :
    rowMovie1994 ∈ recent_decades demoC6 :=
  (C6_decade_restriction demoC6 rowMovie1994).1.mpr
    ⟨by decide, 1994, by decide, by decide⟩

/-! ### C8: date parsing in the loader -/

/-- C8.  The loader's `year_added` derivation is a total function of the
table: one cleaned row per input row; when the `date_added` column exists,
`year_added` is the parsed year, and both missing and unparseable values
(the parser models `errors="coerce"` by returning `none`) yield `none`
rather than an error; when the column does not exist, `year_added` is `none`
for every row. -/
theorem C8_loader_dates (hasDate : Bool) (parseYear : String → Option Int)
    (rows : List RawRow) :
    (cleanTable hasDate parseYear rows).length = rows.length ∧
    (∀ r ∈ rows, (cleanRow hasDate parseYear r).year_added =
      if hasDate then r.date_added.bind parseYear else none) ∧
    (hasDate = false →
      ∀ r ∈ rows, (cleanRow hasDate parseYear r).year_added = none) ∧
    (∀ r : RawRow, r.date_added = none →
      (cleanRow true parseYear r).year_added = none) ∧
    (∀ (r : RawRow) (s : String), r.date_added = some s →
      parseYear s = none → (cleanRow true parseYear r).year_added = none) ∧
    (∀ (r : RawRow) (s : String) (y : Int), r.date_added = some s →
      parseYear s = some y →
      (cleanRow true parseYear r).year_added = some y) := by
  refine ⟨by simp [cleanTable], fun r _ => rfl, ?_, ?_, ?_, ?_⟩
  · rintro rfl r _
    rfl
  · intro r h
    simp [cleanRow, h]
  · intro r s hs hp
    simp [cleanRow, hs, hp]
  · intro r s y hs hp
    simp [cleanRow, hs, hp]

/-- Witness for C8: a row whose `date_added` value no parser accepts cleans
to a `none` year rather than an error. -/
theorem C8_loader_dates_witness :
    (cleanRow true (fun _ => none) rawC8).year_added = none :=
  (C8_loader_dates true (fun _ => none) [rawC8]).2.2.2.2.1 rawC8 "not a date"
    rfl rfl

/-! ### C9: the conditional seventh chart -/

/-- C9.  The seventh image is produced exactly when some TV row has a
non-null season value; if every TV row's duration yields no numeric token,
the script saves exactly the six unconditional charts. -/
theorem C9_seventh_chart (recs : List Row) :
    ("07_tv_seasons_hist.png" ∈ chartFiles recs ↔
      ∃ r ∈ tvOf recs, (seasons r).isSome) ∧
    ((∀ r ∈ tvOf recs, seasons r = none) →
      chartFiles recs =
        ["01_movies_vs_tv.png", "02_top_countries.png",
          "03_growth_by_year_added.png", "04_top_genres.png",
          "05_movie_duration_hist.png", "06_movie_duration_by_decade.png"] ∧
      (chartFiles recs).length = 6) ∧
    ((∃ r ∈ tvOf recs, (seasons r).isSome) →
      (chartFiles recs).length = 7) := by
  have hkey : 0 < (tvSeasons recs).length ↔
      ∃ r ∈ tvOf recs, (seasons r).isSome := by
    constructor
    · intro h
      obtain ⟨v, hv⟩ := List.exists_mem_of_length_pos h
      obtain ⟨r, hr, hrv⟩ := List.mem_filterMap.mp hv
      exact ⟨r, hr, by rw [hrv]; rfl⟩
    · rintro ⟨r, hr, hs⟩
      obtain ⟨v, hv⟩ := Option.isSome_iff_exists.mp hs
      exact List.length_pos_of_mem (List.mem_filterMap.mpr ⟨r, hr, hv⟩)
  refine ⟨?_, ?_, ?_⟩
  · constructor
    · intro h
      by_cases hc : 0 < (tvSeasons recs).length
      · exact hkey.mp hc
      · exfalso
        rw [chartFiles, if_neg hc] at h
        simp at h
    · intro hex
      rw [chartFiles, if_pos (hkey.mpr hex)]
      simp
  · intro hall
    have hnil : tvSeasons recs = [] := by
      rw [show tvSeasons recs = (tvOf recs).filterMap seasons from rfl,
        List.filterMap_eq_nil_iff]
      exact hall
    have hc : ¬0 < (tvSeasons recs).length := by
      rw [hnil]
      decide
    rw [chartFiles, if_neg hc]
    exact ⟨by simp, by simp⟩
  · intro hex
    rw [chartFiles, if_pos (hkey.mpr hex)]
    rfl

/-- Witness for C9: with a single TV row of duration "Unknown" only the six
unconditional charts are produced. -/
theorem C9_seventh_chart_witness :
    chartFiles demoC9 =
      ["01_movies_vs_tv.png", "02_top_countries.png",
        "03_growth_by_year_added.png", "04_top_genres.png",
        "05_movie_duration_hist.png", "06_movie_duration_by_decade.png"] ∧
    (chartFiles demoC9).length = 6 :=
  (C9_seventh_chart demoC9).2.1 (by decide)

/-! ### C10: empty tokens from trailing commas -/

/-- C10.  The field "India," splits into the token "India" and an empty
token; since only the exact token "Unknown" is excluded, the empty string is
counted as its own category in both top-countries and top-genres. -/
theorem C10_empty_token_counted :
    splitTrim "India," = ["India", ""] ∧
    ("", 1) ∈ top_countries demoC10 ∧
    ("", 1) ∈ top_genres demoC10 ∧
    ("" : String) ≠ "Unknown" := by
  decide

end NetflixEDA
